import Mathlib

/-!
Verification development for the iCloudAndroidSuite synchronization core.

The development shallowly embeds the three algorithmic components of the
repository:

* `DataSynchronizer` — the batching/retrying sync dispatcher
  (`src/backend-service/src/services/DataSynchronizer.ts`);
* `ConflictResolution` — the conflict-resolution strategies
  (`src/backend-service/src/services/ConflictResolutionService.ts`),
  with a value (tree) model for acyclic data and a separate heap model
  (`MergeHeap`) for inputs with object identity and cycles;
* `LivePhotoService` — the motion-photo container splice
  (`LivePhotoService.ts`, shipped as `src/unnamed/part_002`).

Machine integers do not occur (all counters are small naturals); time
(backoff delays, timeouts) is not modelled — `setTimeout` waits have no
observable effect on the data flow being verified.  Network and metadata
collaborators are passed in as explicit function parameters, mirroring the
constructor-injected services of the source.
-/

set_option maxRecDepth 8192

deriving instance DecidableEq for Except

namespace DataSynchronizer

/-- A sync record (`SyncData` in the source): mandatory `id`, optional
opaque `metadata` payload (the source types it `unknown`; we model it as an
opaque `String`).  The remaining caller-defined fields play no role in the
dispatcher's control flow and are not modelled. -/
structure SyncRec where
  id : String
  metadata : Option String := none
deriving DecidableEq

/-- `data : T | T[]` — the dispatcher accepts a single record or a list. -/
inductive RecOrList where
  | one (r : SyncRec)
  | many (rs : List SyncRec)
deriving DecidableEq

/-- A JavaScript error as observed by the dispatcher: a message and, for
`AppError`s, an HTTP-equivalent status. -/
structure JsError where
  message : String
  status : Option Nat := none
deriving DecidableEq

/-- Response payload as produced by `response.json()`, typed `T | T[]` in
the source. -/
inductive Payload where
  | one (r : SyncRec)
  | many (rs : List SyncRec)
deriving DecidableEq

/-- `Array.isArray(result) ? result : [result]` — the record list a payload
contributes to the outcome. -/
def Payload.items : Payload → List SyncRec
  | .one r => [r]
  | .many rs => rs

/-- The parts of a `fetch` response the dispatcher reads.  `json` is the
result of `response.json()`, which may reject on a malformed body. -/
structure Response where
  ok : Bool
  status : Nat
  statusText : String
  json : Except String Payload
deriving DecidableEq

/-- Outcome of one `fetchWithTimeout` call: either it resolves with a
response (any HTTP status), or it rejects (network error / timeout). -/
inductive FetchOutcome where
  | resp (r : Response)
  | thrown (message : String)
deriving DecidableEq

/-- The request the dispatcher hands to `fetchWithTimeout`.  `body` keeps
the value before `JSON.stringify`; serialization is injective, so the
endpoint's behaviour as a function of the serialized body is equally a
function of the value.  Headers and URL do not vary per batch and are
omitted. -/
structure Request where
  method : String
  body : Option RecOrList
deriving DecidableEq

/-- `body: method !== 'GET' ? JSON.stringify(data) : undefined`
(DataSynchronizer.ts line 99). -/
def mkRequest (method : String) (data : RecOrList) : Request :=
  { method := method, body := if method ≠ "GET" then some data else none }

/-- The endpoint collaborator: a deterministic response per request. -/
abbrev Fetch := Request → FetchOutcome

/-- The `AppleMetadataService` collaborator as used by `singleSync`:
`convertToAppleMetadata` then `saveMetadata`. -/
structure MetaServices where
  convertToAppleMetadata : String → Except String String
  saveMetadata : String → String → Except String Unit

/-- Metadata side effect for one record: skipped when the record carries no
`metadata`; otherwise convert then save (either step may fail). -/
def persistMeta (ms : MetaServices) (r : SyncRec) : Except String Unit :=
  match r.metadata with
  | none => .ok ()
  | some md =>
    match ms.convertToAppleMetadata md with
    | .error e => .error e
    | .ok am => ms.saveMetadata r.id am

/-- `Promise.all(data.map(...))` over the records' metadata steps: succeeds
iff every step succeeds; the first failure (in order) is reported. -/
def persistAll (ms : MetaServices) : List SyncRec → Except String Unit
  | [] => .ok ()
  | r :: rs =>
    match persistMeta ms r with
    | .ok _ => persistAll ms rs
    | .error e => .error e

/-- The metadata side effect of `singleSync` for the submitted data:
`Promise.all` over the records of an array, the single record's step
otherwise (lines 112-122). -/
def persistStep (ms : MetaServices) : RecOrList → Except String Unit
  | .many rs => persistAll ms rs
  | .one r => persistMeta ms r

/-- `MAX_RETRIES` (DataSynchronizer.ts line 30). -/
def MAX_RETRIES : Nat := 5

/-- `BATCH_SIZE` (DataSynchronizer.ts line 31). -/
def BATCH_SIZE : Nat := 100

/-- `retryOperation` (lines 131-146).  The operation is a state transformer
on the running count of network calls.  One attempt per loop iteration; the
last attempt's error is rethrown; with a zero budget the loop body never
runs and the trailing `AppError('Max retries reached', 500)` is thrown.
The exponential-backoff `setTimeout` only delays and is not modelled. -/
def retryOperation {α : Type} (op : Nat → Except JsError α × Nat) :
    Nat → Nat → Except JsError α × Nat
  | 0, calls => (.error ⟨"Max retries reached", some 500⟩, calls)
  | retries + 1, calls =>
    match op calls with
    | (.ok a, calls') => (.ok a, calls')
    | (.error e, calls') =>
      if retries = 0 then (.error e, calls') else retryOperation op retries calls'

/-- One `fetchWithTimeout` call as a retryable operation: increments the
call counter; a rejected fetch is the thrown error. -/
def fetchOp (fetch : Fetch) (req : Request) (calls : Nat) :
    Except JsError Response × Nat :=
  (match fetch req with
   | .resp r => .ok r
   | .thrown m => .error ⟨m, none⟩, calls + 1)

/-- `singleSync` (lines 86-129): retry the fetch up to `MAX_RETRIES` times;
a non-ok response, a failing `response.json()`, or a failing metadata step
all land in the surrounding `catch`, which rethrows
`AppError('Failed to sync data', 500)`. -/
def singleSync (fetch : Fetch) (ms : MetaServices) (data : RecOrList)
    (method : String) (calls : Nat) : Except JsError Payload × Nat :=
  match retryOperation (fetchOp fetch (mkRequest method data)) MAX_RETRIES calls with
  | (.error _, calls') => (.error ⟨"Failed to sync data", some 500⟩, calls')
  | (.ok response, calls') =>
    if !response.ok then (.error ⟨"Failed to sync data", some 500⟩, calls')
    else
      match response.json with
      | .error _ => (.error ⟨"Failed to sync data", some 500⟩, calls')
      | .ok payload =>
        match persistStep ms data with
        | .error _ => (.error ⟨"Failed to sync data", some 500⟩, calls')
        | .ok _ => (.ok payload, calls')

/-- One per-record failure entry of the outcome. -/
structure SyncErr where
  id : String
  error : String
deriving DecidableEq

/-- `SyncResult<T>`: aggregated results and per-record errors. -/
structure SyncResult where
  results : List SyncRec
  errors : List SyncErr
deriving DecidableEq

/-- Structural worker for `chunkList`: the counter only bounds the number
of loop iterations (each iteration consumes at least one record, so
`l.length` iterations always suffice); it is not part of the source. -/
def chunkListAux : Nat → List SyncRec → List (List SyncRec)
  | 0, _ => []
  | _, [] => []
  | n + 1, r :: rs =>
    (r :: rs).take BATCH_SIZE :: chunkListAux n ((r :: rs).drop BATCH_SIZE)

/-- The batch partition of `batchSync`'s loop
(`for (i = 0; i < data.length; i += BATCH_SIZE) slice(i, i + BATCH_SIZE)`). -/
def chunkList (l : List SyncRec) : List (List SyncRec) :=
  chunkListAux l.length l

/-- Loop body of `batchSync` (lines 65-81): each batch is attempted through
an outer `retryOperation` around `singleSync`; on success the payload items
are appended to `results`, on failure every record of the batch is recorded
as `{id, error: error.message}`. -/
def batchSyncLoop (fetch : Fetch) (ms : MetaServices) (method : String) :
    List (List SyncRec) → List SyncRec → List SyncErr → Nat → SyncResult × Nat
  | [], results, errors, calls => ({ results := results, errors := errors }, calls)
  | b :: bs, results, errors, calls =>
    match retryOperation (fun c => singleSync fetch ms (.many b) method c)
        MAX_RETRIES calls with
    | (.ok payload, calls') =>
      batchSyncLoop fetch ms method bs (results ++ payload.items) errors calls'
    | (.error e, calls') =>
      batchSyncLoop fetch ms method bs results
        (errors ++ b.map fun r => ⟨r.id, e.message⟩) calls'

/-- `batchSync` (lines 57-84). -/
def batchSync (fetch : Fetch) (ms : MetaServices) (data : List SyncRec)
    (method : String) (calls : Nat) : SyncResult × Nat :=
  batchSyncLoop fetch ms method (chunkList data) [] [] calls

/-- `syncData` (lines 42-55): collections larger than `BATCH_SIZE` go
through `batchSync` (which never throws — per-batch failures are
aggregated); anything else goes through one `singleSync`, whose failure
propagates as a thrown error and whose success yields an empty `errors`
list. -/
def syncData (fetch : Fetch) (ms : MetaServices) (data : RecOrList)
    (method : String) (calls : Nat) : Except JsError SyncResult × Nat :=
  match data with
  | .many rs =>
    if rs.length > BATCH_SIZE then
      let (out, calls') := batchSync fetch ms rs method calls
      (.ok out, calls')
    else
      match singleSync fetch ms (.many rs) method calls with
      | (.ok payload, calls') => (.ok { results := payload.items, errors := [] }, calls')
      | (.error e, calls') => (.error e, calls')
  | .one r =>
    match singleSync fetch ms (.one r) method calls with
    | (.ok payload, calls') => (.ok { results := payload.items, errors := [] }, calls')
    | (.error e, calls') => (.error e, calls')

end DataSynchronizer

namespace ConflictResolution

/-- A JavaScript value, as a tree.  This value model is adequate for
acyclic, alias-free data (each tree node stands for a freshly allocated
object, as produced by a JSON parse); object identity and cycles are
modelled separately in `MergeHeap`.  Numbers are modelled as integers (the
inputs of interest carry small integers; float corner cases are outside the
claims). -/
inductive JValue where
  | null
  | undefined
  | bool (b : Bool)
  | num (n : Int)
  | str (s : String)
  | arr (elems : List JValue)
  | obj (fields : List (String × JValue))

/-- `isObject` (ConflictResolutionService.ts lines 107-109): truthy,
`typeof === 'object'`, and not an array — so `null`, arrays and primitives
are excluded. -/
def isObject : JValue → Bool
  | .obj _ => true
  | _ => false

/-- Object spread `{...v}`: an object's own fields; an array's or string's
index properties; `{}` for every other value. -/
def spreadFields : JValue → List (String × JValue)
  | .obj fs => fs
  | .arr xs => (List.range xs.length).zip xs |>.map fun p => (toString p.1, p.2)
  | .str s => (List.range s.length).zip (s.toList.map fun c => JValue.str (String.mk [c]))
      |>.map fun p => (toString p.1, p.2)
  | _ => []

/-- Array spread `[...v]`: arrays yield their elements, strings their
characters, everything else throws `TypeError: x is not iterable`. -/
def iterElems : JValue → Except String (List JValue)
  | .arr xs => .ok xs
  | .str s => .ok (s.toList.map fun c => JValue.str (String.mk [c]))
  | _ => .error "TypeError: value is not iterable"

/-- `SameValueZero`, the equality used by `Set`: primitives compare by
value; objects and arrays compare by reference, and in this alias-free tree
model two distinct nodes are never the same reference. -/
def sameValueZero : JValue → JValue → Bool
  | .null, .null => true
  | .undefined, .undefined => true
  | .bool a, .bool b => a == b
  | .num a, .num b => a == b
  | .str a, .str b => a == b
  | _, _ => false

/-- `Array.from(new Set(xs))`: keep the first occurrence of each element,
in order. -/
def setDedup (xs : List JValue) : List JValue :=
  xs.foldl (fun acc x => if acc.any (sameValueZero · x) then acc else acc ++ [x]) []

/-- Property read `fields[key]` on an object's field list. -/
def getProp (fs : List (String × JValue)) (k : String) : Option JValue :=
  (fs.find? fun p => p.1 = k).map fun p => p.2

/-- Property read with JavaScript's absent-means-`undefined` convention. -/
def jsGet (fs : List (String × JValue)) (k : String) : JValue :=
  (getProp fs k).getD .undefined

/-- The `key in target` test: key presence, regardless of the value. -/
def hasKey (fs : List (String × JValue)) (k : String) : Bool :=
  fs.any fun p => p.1 == k

/-- Property write `output[key] = v` / `Object.assign(output, {[key]: v})`:
an existing key keeps its position, a new key is appended. -/
def setProp : List (String × JValue) → String → JValue → List (String × JValue)
  | [], k, v => [(k, v)]
  | (k', v') :: fs, k, v =>
    if k' = k then (k, v) :: fs else (k', v') :: setProp fs k v

/-- `MergeStrategy.deepMerge` (ConflictResolutionService.ts lines 35-59) on
tree values, fuelled for structural recursion (any input of object-nesting
depth below the fuel is computed exactly; fuel is a modelling artifact, not
part of the source).  `output = {...target}`; when both sides are objects,
the source's keys are folded over in order: a source array becomes the
deduplicated union `[...target[key], ...source[key]]`; a source object
recurses when the key is present in the target and is copied otherwise;
every other source value is assigned (local wins).  The `seen` map of the
source only changes behaviour on aliased or cyclic inputs, which this tree
model cannot express (see `MergeHeap.deepMergeH` for those). -/
def deepMerge : Nat → JValue → JValue → Except String JValue
  | 0, _, _ => .error "out of fuel"
  | fuel + 1, target, source =>
    match source with
    | .obj sFields =>
      match target with
      | .obj tFields =>
        Except.map .obj
          (sFields.foldlM (fun (output : List (String × JValue)) (kv : String × JValue) =>
            (match kv.2 with
             | .arr sArr =>
               (match iterElems (jsGet tFields kv.1) with
                | .error e => .error e
                | .ok tArr =>
                  .ok (setProp output kv.1 (.arr (setDedup (tArr ++ sArr)))))
             | .obj sObj =>
               if hasKey tFields kv.1 then
                 (match deepMerge fuel (jsGet tFields kv.1) (.obj sObj) with
                  | .error e => .error e
                  | .ok m => .ok (setProp output kv.1 m))
               else .ok (setProp output kv.1 (.obj sObj))
             | v => .ok (setProp output kv.1 v) :
              Except String (List (String × JValue)))) tFields)
      | _ => .ok (.obj (spreadFields target))
    | _ => .ok (.obj (spreadFields target))

/-- `MergeStrategy.resolve` (lines 31-33): note the argument swap — the
cloud record is the merge target, the local record the source. -/
def mergeResolve (fuel : Nat) (localData cloudData : JValue) : Except String JValue :=
  deepMerge fuel cloudData localData

/-- A record as seen by `LastWriteWinsStrategy`: the declared interface is
`{ [key: string]: unknown; modificationDate?: string }`; only
`modificationDate` steers the strategy, the rest is carried opaquely. -/
structure CRecord where
  modificationDate : Option String := none
  rest : List (String × JValue) := []

/-- `new Date(data.modificationDate || '').getTime()` distilled to its
parse outcome: a missing or empty date string is `new Date('')`, which is
invalid; any other string goes through the environment's date parser
(`parse`), with `none` standing for an invalid date (`NaN` time). -/
def dateOf (parse : String → Option Int) (r : CRecord) : Option Int :=
  match r.modificationDate with
  | none => none
  | some s => if s = "" then none else parse s

/-- `LastWriteWinsStrategy.resolve` (ConflictResolutionService.ts lines
14-27): both dates invalid — local; exactly one invalid — the other side;
both valid — local iff `localDate >= cloudDate`. -/
def lastWriteWins (parse : String → Option Int) (localData cloudData : CRecord) :
    CRecord :=
  match dateOf parse localData, dateOf parse cloudData with
  | none, none => localData
  | none, some _ => cloudData
  | some _, none => localData
  | some lt, some ct => if lt ≥ ct then localData else cloudData

end ConflictResolution

namespace MergeHeap

/-- A JavaScript value with explicit object identity: `obj a` is a
reference to the object stored at address `a` of the heap.  This is the
model under which self-referential (cyclic) records, and the `seen`
`WeakMap` of `MergeStrategy.deepMerge`, are expressible.  Arrays are kept
inline (the cyclic inputs of interest carry none). -/
inductive HValue where
  | null
  | undefined
  | bool (b : Bool)
  | num (n : Int)
  | str (s : String)
  | arr (elems : List HValue)
  | obj (addr : Nat)

/-- An object's own fields. -/
abbrev HFields := List (String × HValue)

/-- The heap: object `a` is `objs[a]`; allocation appends. -/
structure Heap where
  objs : List HFields

/-- Read the fields of the object at `a`. -/
def Heap.getObj (h : Heap) (a : Nat) : HFields :=
  (h.objs.get? a).getD []

/-- Allocate a fresh object with the given fields. -/
def Heap.alloc (h : Heap) (fs : HFields) : Nat × Heap :=
  (h.objs.length, ⟨h.objs ++ [fs]⟩)

/-- Overwrite the fields of the object at `a`. -/
def Heap.setObj (h : Heap) (a : Nat) (fs : HFields) : Heap :=
  ⟨h.objs.set a fs⟩

/-- Property read on a field list, absent meaning `undefined`. -/
def hGet (fs : HFields) (k : String) : HValue :=
  ((fs.find? fun p => p.1 = k).map fun p => p.2).getD .undefined

/-- The `key in target` presence test. -/
def hHasKey (fs : HFields) (k : String) : Bool :=
  fs.any fun p => p.1 == k

/-- Property write: existing key updated in place, new key appended. -/
def hSetProp : HFields → String → HValue → HFields
  | [], k, v => [(k, v)]
  | (k', v') :: fs, k, v =>
    if k' = k then (k, v) :: fs else (k', v') :: hSetProp fs k v

/-- Object spread `{...v}` under the heap model. -/
def hSpread (h : Heap) : HValue → HFields
  | .obj a => h.getObj a
  | .arr xs => (List.range xs.length).zip xs |>.map fun p => (toString p.1, p.2)
  | .str s => (List.range s.length).zip (s.toList.map fun c => HValue.str (String.mk [c]))
      |>.map fun p => (toString p.1, p.2)
  | _ => []

/-- Array spread `[...v]` under the heap model. -/
def hIter : HValue → Except String (List HValue)
  | .arr xs => .ok xs
  | .str s => .ok (s.toList.map fun c => HValue.str (String.mk [c]))
  | _ => .error "TypeError: value is not iterable"

/-- `SameValueZero` under the heap model: object references compare by
address — exactly JavaScript's reference equality. -/
def hSameValueZero : HValue → HValue → Bool
  | .null, .null => true
  | .undefined, .undefined => true
  | .bool a, .bool b => a == b
  | .num a, .num b => a == b
  | .str a, .str b => a == b
  | .obj a, .obj b => a == b
  | _, _ => false

/-- `Array.from(new Set(xs))` under the heap model. -/
def hSetDedup (xs : List HValue) : List HValue :=
  xs.foldl (fun acc x => if acc.any (hSameValueZero · x) then acc else acc ++ [x]) []

/-- The mutable state threaded through the merge: the heap plus the `seen`
`WeakMap`, mapping a source object's address to the address of the output
object created for it. -/
structure MergeSt where
  heap : Heap
  seen : List (Nat × Nat)

/-- `MergeStrategy.deepMerge` (ConflictResolutionService.ts lines 35-59)
under the heap model, fuelled for structural recursion.  A source object
already in `seen` resolves to the output object previously created for it
(this is what makes a cyclic source terminate); otherwise a fresh output
object is allocated as `{...target}`, recorded in `seen`, and — when the
target is an object too — the source's fields are folded in, in order,
mutating the output object in the heap.  `none` is exhausted fuel (or the
out-of-model `WeakMap` use on a primitive source, which no modelled
execution reaches); any finite run is reproduced exactly by a sufficiently
large fuel. -/
def deepMergeH : Nat → HValue → HValue → MergeSt → Option (HValue × MergeSt)
  | 0, _, _, _ => none
  | fuel + 1, target, source, st =>
    match source with
    | .obj sa =>
      match st.seen.lookup sa with
      | some outAddr => some (.obj outAddr, st)
      | none =>
        let sFields := st.heap.getObj sa
        let (outAddr, heap1) := st.heap.alloc (hSpread st.heap target)
        let st1 : MergeSt := ⟨heap1, (sa, outAddr) :: st.seen⟩
        match target with
        | .obj ta =>
          match (sFields.foldlM (fun (st2 : MergeSt) (kv : String × HValue) =>
            let tFields := st2.heap.getObj ta
            match kv.2 with
            | .arr sArr =>
              match hIter (hGet tFields kv.1) with
              | .error _ => none
              | .ok tArr =>
                let merged := HValue.arr (hSetDedup (tArr ++ sArr))
                some (⟨st2.heap.setObj outAddr
                  (hSetProp (st2.heap.getObj outAddr) kv.1 merged), st2.seen⟩ : MergeSt)
            | .obj sb =>
              if hHasKey tFields kv.1 then
                match deepMergeH fuel (hGet tFields kv.1) (.obj sb) st2 with
                | some (m, st3) =>
                  some (⟨st3.heap.setObj outAddr
                    (hSetProp (st3.heap.getObj outAddr) kv.1 m), st3.seen⟩ : MergeSt)
                | none => none
              else
                some (⟨st2.heap.setObj outAddr
                  (hSetProp (st2.heap.getObj outAddr) kv.1 (.obj sb)), st2.seen⟩ : MergeSt)
            | v =>
              some (⟨st2.heap.setObj outAddr
                (hSetProp (st2.heap.getObj outAddr) kv.1 v), st2.seen⟩ : MergeSt)) st1 :
              Option MergeSt) with
          | some st2 => some (.obj outAddr, st2)
          | none => none
        | _ => some (.obj outAddr, st1)
    | _ => none

/-- `MergeStrategy.resolve` under the heap model: `deepMerge(cloudData,
localData, new WeakMap())`. -/
def mergeResolveH (fuel : Nat) (h : Heap) (localAddr cloudAddr : Nat) :
    Option (HValue × MergeSt) :=
  deepMergeH fuel (.obj cloudAddr) (.obj localAddr) ⟨h, []⟩

end MergeHeap

namespace LivePhotoService

/-- Byte sequences (`Buffer`) as lists of byte values. -/
abbrev Bytes := List Nat

/-- First index at which the two-byte pattern `a b` occurs
(`buffer.indexOf(Buffer.from([a, b]))`), `none` for JavaScript's `-1`. -/
def indexOfPair (a b : Nat) : Bytes → Option Nat
  | x :: y :: rest =>
    if x = a ∧ y = b then some 0 else (indexOfPair a b (y :: rest)).map (· + 1)
  | _ => none

/-- The XMP motion-photo marker block (LivePhotoService lines 112-126),
exactly the template literal of the source (including its newlines and
indentation; the `begin` attribute carries a U+FEFF). -/
def xmpString : String :=
  String.intercalate "\n"
    [ "<?xpacket begin=\"﻿\" id=\"W5M0MpCehiHzreSzNTczkc9d\"?>"
    , "            <x:xmpmeta xmlns:x=\"adobe:ns:meta/\">"
    , "              <rdf:RDF xmlns:rdf=\"http://www.w3.org/1999/02/22-rdf-syntax-ns#\">"
    , "                <rdf:Description rdf:about=\"\""
    , "                    xmlns:GCamera=\"http://ns.google.com/photos/1.0/camera/\">"
    , "                  <GCamera:MotionPhoto>1</GCamera:MotionPhoto>"
    , "                  <GCamera:MotionPhotoVersion>1</GCamera:MotionPhotoVersion>"
    , "                  <GCamera:MotionPhotoPresentationTimestampUs>0</GCamera:MotionPhotoPresentationTimestampUs>"
    , "                </rdf:Description>"
    , "              </rdf:RDF>"
    , "            </x:xmpmeta>"
    , "            <?xpacket end=\"w\"?>" ]

/-- UTF-8 encoding of one character (code points below `0x110000`). -/
def utf8Bytes (c : Char) : Bytes :=
  let n := c.toNat
  if n < 0x80 then [n]
  else if n < 0x800 then [0xC0 + n / 64, 0x80 + n % 64]
  else if n < 0x10000 then
    [0xE0 + n / 4096, 0x80 + (n / 64) % 64, 0x80 + n % 64]
  else
    [0xF0 + n / 262144, 0x80 + (n / 4096) % 64, 0x80 + (n / 64) % 64, 0x80 + n % 64]

/-- `Buffer.from(xmpString, 'utf-8')`. -/
def xmpMetadata : Bytes :=
  xmpString.data.flatMap utf8Bytes

/-- `embedMp4IntoJpeg` (LivePhotoService lines 111-135):
`exifEnd = jpegBuffer.indexOf([0xFF, 0xE1]) + 2` — note that an absent
APP1 marker gives `-1 + 2 = 1` — then
`concat [jpeg[0:exifEnd], xmp, jpeg[exifEnd:], mp4]`. -/
def embedMp4IntoJpeg (jpegBuffer mp4Buffer : Bytes) : Bytes :=
  let exifEnd : Nat :=
    match indexOfPair 0xFF 0xE1 jpegBuffer with
    | some i => i + 2
    | none => 1
  jpegBuffer.take exifEnd ++ xmpMetadata ++ jpegBuffer.drop exifEnd ++ mp4Buffer

/-- `extractJpegAndMp4` (LivePhotoService lines 101-109):
`jpegEnd = buffer.indexOf([0xFF, 0xD9]) + 2` — an absent end-of-image
marker gives `-1 + 2 = 1` — then split into `buffer[0:jpegEnd]` and
`buffer[jpegEnd:]`.  No failure path exists for a missing marker. -/
def extractJpegAndMp4 (buffer : Bytes) : Bytes × Bytes :=
  let jpegEnd : Nat :=
    match indexOfPair 0xFF 0xD9 buffer with
    | some i => i + 2
    | none => 1
  (buffer.take jpegEnd, buffer.drop jpegEnd)

/-- `convertToAndroidMotionPhoto` (LivePhotoService lines 34-51), with the
external `ffmpeg` MOV-to-MP4 re-encoding abstracted as `movToMp4`: splice
the re-encoded video into the still image. -/
def convertToAndroidMotionPhoto (movToMp4 : Bytes → Bytes)
    (jpeg mov : Bytes) : Bytes :=
  embedMp4IntoJpeg jpeg (movToMp4 mov)

/-- `convertToAppleLivePhoto` (LivePhotoService lines 53-77), with the
external `ffmpeg` MP4-to-MOV re-encoding abstracted as `mp4ToMov`: split
the spliced asset, then re-encode the trailing video payload. -/
def convertToAppleLivePhoto (mp4ToMov : Bytes → Bytes)
    (motionPhoto : Bytes) : Bytes × Bytes :=
  let p := extractJpegAndMp4 motionPhoto
  (p.1, mp4ToMov p.2)

end LivePhotoService

namespace DataSynchronizer

/-- A minimal concrete record for concrete executions. -/
def recA : SyncRec := ⟨"c1", none⟩

/-- An endpoint whose every call fails at network level (connection
error / timeout): `fetchWithTimeout` rejects. -/
def alwaysThrow : Fetch := fun _ => .thrown "network error"

/-- An endpoint whose every call resolves with a failing HTTP status. -/
def badStatusFetch : Fetch :=
  fun _ => .resp ⟨false, 500, "Internal Server Error", .error "no body"⟩

/-- A healthy endpoint that echoes the submitted records back. -/
def echoFetch : Fetch := fun req =>
  match req.body with
  | some (.many rs) => .resp ⟨true, 200, "OK", .ok (.many rs)⟩
  | some (.one r) => .resp ⟨true, 200, "OK", .ok (.one r)⟩
  | none => .thrown "no body"

/-- An endpoint that echoes full batches and fails at network level on
anything else. -/
def mixedFetch : Fetch := fun req =>
  match req.body with
  | some (.many rs) =>
    if rs.length = 100 then .resp ⟨true, 200, "OK", .ok (.many rs)⟩
    else .thrown "boom"
  | _ => .thrown "boom"

/-- An endpoint that answers every request with two copies of `recA`. -/
def dupFetch : Fetch := fun _ => .resp ⟨true, 200, "OK", .ok (.many [recA, recA])⟩

/-- Metadata collaborators that always succeed. -/
def noMeta : MetaServices := ⟨fun md => .ok md, fun _ _ => .ok ()⟩

/-- The error `singleSync` rethrows from its catch-all
(`AppError('Failed to sync data', 500)`, line 127). -/
def syncFailedErr : JsError := ⟨"Failed to sync data", some 500⟩

end DataSynchronizer

namespace ConflictResolution

/-- The local record of the repository's own array-merge test
(`{ id: "1", array: [1, 2, 3] }`). -/
def mergeLocalTest : JValue :=
  .obj [("id", .str "1"), ("array", .arr [.num 1, .num 2, .num 3])]

/-- The cloud record of the repository's own array-merge test
(`{ id: "1", array: [3, 4, 5] }`). -/
def mergeCloudTest : JValue :=
  .obj [("id", .str "1"), ("array", .arr [.num 3, .num 4, .num 5])]

/-- A date parser fixture covering the two timestamps of the repository's
last-write-wins tests; everything else is an invalid date. -/
def parseTest : String → Option Int := fun s =>
  if s = "2023-07-03T13:00:00Z" then some 1688389200000
  else if s = "2023-07-03T12:00:00Z" then some 1688385600000
  else none

/-- Local record fixture: modified at 13:00. -/
def lwwLocal : CRecord :=
  { modificationDate := some "2023-07-03T13:00:00Z",
    rest := [("id", .str "1"), ("content", .str "local")] }

/-- Cloud record fixture: modified at 12:00. -/
def lwwCloud : CRecord :=
  { modificationDate := some "2023-07-03T12:00:00Z",
    rest := [("id", .str "1"), ("content", .str "cloud")] }

end ConflictResolution

namespace MergeHeap

/-- The heap of the repository's own circular-reference test: object 0 is
the local record `{ id: "1", self: <object 0 itself> }` (cyclic), object 1
the cloud record `{ id: "1", content: "cloud" }`. -/
def cyclicHeap : Heap :=
  ⟨[[("id", .str "1"), ("self", .obj 0)],
    [("id", .str "1"), ("content", .str "cloud")]]⟩

end MergeHeap

namespace LivePhotoService

/-- A minimal well-formed still image: SOI, APP1 marker, a two-byte
payload, EOI — with its only `FF D9` at the very end. -/
def jpeg0 : Bytes := [0xFF, 0xD8, 0xFF, 0xE1, 0x00, 0x04, 0xAB, 0xCD, 0xFF, 0xD9]

/-- A three-byte stand-in video payload. -/
def mov0 : Bytes := [1, 2, 3]

end LivePhotoService

namespace DataSynchronizer

theorem retryOperation_const_fail {α : Type} (op : Nat → Except JsError α × Nat)
    (e : JsError) (k : Nat) (hop : ∀ c, op c = (.error e, c + k)) :
    ∀ n c, 0 < n → retryOperation op n c = (.error e, c + n * k) := by
  intro n
  induction n with
  | zero => intro c h; exact absurd h (by omega)
  | succ n ih =>
    intro c _
    rw [retryOperation, hop c]
    by_cases hn : n = 0
    · subst hn; simp
    · have := ih (c + k) (by omega)
      simp only [if_neg hn, this, Nat.succ_mul, Prod.mk.injEq]
      exact ⟨trivial, by omega⟩

theorem retryOperation_const_ok {α : Type} (op : Nat → Except JsError α × Nat)
    (a : α) (k : Nat) (hop : ∀ c, op c = (.ok a, c + k)) (n c : Nat) :
    retryOperation op (n + 1) c = (.ok a, c + k) := by
  rw [retryOperation, hop c]

theorem fetchOp_thrown (fetch : Fetch) (req : Request) (m : String)
    (h : fetch req = .thrown m) (c : Nat) :
    fetchOp fetch req c = (.error ⟨m, none⟩, c + 1) := by
  simp [fetchOp, h]

theorem fetchOp_resp (fetch : Fetch) (req : Request) (r : Response)
    (h : fetch req = .resp r) (c : Nat) :
    fetchOp fetch req c = (.ok r, c + 1) := by
  simp [fetchOp, h]

/-- A network-level-failing endpoint makes `singleSync` perform
`MAX_RETRIES` fetch calls and rethrow the catch-all error. -/
theorem singleSync_thrown (fetch : Fetch) (ms : MetaServices) (data : RecOrList)
    (method : String) (m : String)
    (h : fetch (mkRequest method data) = .thrown m) (c : Nat) :
    singleSync fetch ms data method c = (.error syncFailedErr, c + MAX_RETRIES) := by
  have hfail := retryOperation_const_fail (fetchOp fetch (mkRequest method data))
    ⟨m, none⟩ 1 (fetchOp_thrown fetch (mkRequest method data) m h) MAX_RETRIES c
    (by simp [MAX_RETRIES])
  simp only [MAX_RETRIES, Nat.mul_one] at hfail
  simp [singleSync, MAX_RETRIES, hfail, syncFailedErr]

/-- An endpoint answering a failing HTTP status makes `singleSync` perform
one fetch call (the fetch itself resolved) and rethrow the catch-all
error. -/
theorem singleSync_notOk (fetch : Fetch) (ms : MetaServices) (data : RecOrList)
    (method : String) (r : Response)
    (h : fetch (mkRequest method data) = .resp r) (hok : r.ok = false) (c : Nat) :
    singleSync fetch ms data method c = (.error syncFailedErr, c + 1) := by
  have hfetch := retryOperation_const_ok (fetchOp fetch (mkRequest method data))
    r 1 (fetchOp_resp fetch (mkRequest method data) r h) (MAX_RETRIES - 1) c
  have h5 : MAX_RETRIES - 1 + 1 = 5 := by simp [MAX_RETRIES]
  rw [h5] at hfetch
  simp [singleSync, MAX_RETRIES, hfetch, hok, syncFailedErr]

/-- A healthy call: one fetch, payload returned, metadata persisted. -/
theorem singleSync_ok (fetch : Fetch) (ms : MetaServices) (data : RecOrList)
    (method : String) (r : Response) (p : Payload)
    (h : fetch (mkRequest method data) = .resp r) (hok : r.ok = true)
    (hj : r.json = .ok p) (hm : persistStep ms data = .ok ()) (c : Nat) :
    singleSync fetch ms data method c = (.ok p, c + 1) := by
  have hfetch := retryOperation_const_ok (fetchOp fetch (mkRequest method data))
    r 1 (fetchOp_resp fetch (mkRequest method data) r h) (MAX_RETRIES - 1) c
  have h5 : MAX_RETRIES - 1 + 1 = 5 := by simp [MAX_RETRIES]
  rw [h5] at hfetch
  simp [singleSync, MAX_RETRIES, hfetch, hok, hj, hm]

/-- A response with an unparseable body: `response.json()` rejects inside
the `try`, so the catch-all error is rethrown after one fetch call. -/
theorem singleSync_badJson (fetch : Fetch) (ms : MetaServices) (data : RecOrList)
    (method : String) (r : Response) (e : String)
    (h : fetch (mkRequest method data) = .resp r) (hok : r.ok = true)
    (hj : r.json = .error e) (c : Nat) :
    singleSync fetch ms data method c = (.error syncFailedErr, c + 1) := by
  have hfetch := retryOperation_const_ok (fetchOp fetch (mkRequest method data))
    r 1 (fetchOp_resp fetch (mkRequest method data) r h) (MAX_RETRIES - 1) c
  have h5 : MAX_RETRIES - 1 + 1 = 5 := by simp [MAX_RETRIES]
  rw [h5] at hfetch
  simp [singleSync, MAX_RETRIES, hfetch, hok, hj, syncFailedErr]

/-- A failing metadata step after a healthy call: the catch-all error is
rethrown after one fetch call. -/
theorem singleSync_badMeta (fetch : Fetch) (ms : MetaServices) (data : RecOrList)
    (method : String) (r : Response) (p : Payload) (e : String)
    (h : fetch (mkRequest method data) = .resp r) (hok : r.ok = true)
    (hj : r.json = .ok p) (hm : persistStep ms data = .error e) (c : Nat) :
    singleSync fetch ms data method c = (.error syncFailedErr, c + 1) := by
  have hfetch := retryOperation_const_ok (fetchOp fetch (mkRequest method data))
    r 1 (fetchOp_resp fetch (mkRequest method data) r h) (MAX_RETRIES - 1) c
  have h5 : MAX_RETRIES - 1 + 1 = 5 := by simp [MAX_RETRIES]
  rw [h5] at hfetch
  simp [singleSync, MAX_RETRIES, hfetch, hok, hj, hm, syncFailedErr]

/-- The per-batch unit of `batchSync` — the outer `retryOperation` around
`singleSync` — against a network-level-failing endpoint: the inner retry
spends `MAX_RETRIES` fetch calls on each of the `MAX_RETRIES` outer
attempts, 25 calls in total. -/
theorem batchRetry_thrown (fetch : Fetch) (ms : MetaServices) (method : String)
    (b : List SyncRec) (m : String)
    (h : fetch (mkRequest method (.many b)) = .thrown m) (c : Nat) :
    retryOperation (fun c' => singleSync fetch ms (.many b) method c') MAX_RETRIES c
      = (.error syncFailedErr, c + MAX_RETRIES * MAX_RETRIES) :=
  retryOperation_const_fail _ syncFailedErr MAX_RETRIES
    (fun c' => singleSync_thrown fetch ms (.many b) method m h c') MAX_RETRIES c
    (by simp [MAX_RETRIES])

/-- The per-batch unit against an endpoint that always answers a failing
HTTP status: one fetch call per outer attempt, `MAX_RETRIES` in total. -/
theorem batchRetry_notOk (fetch : Fetch) (ms : MetaServices) (method : String)
    (b : List SyncRec) (r : Response)
    (h : fetch (mkRequest method (.many b)) = .resp r) (hok : r.ok = false) (c : Nat) :
    retryOperation (fun c' => singleSync fetch ms (.many b) method c') MAX_RETRIES c
      = (.error syncFailedErr, c + MAX_RETRIES) := by
  have := retryOperation_const_fail _ syncFailedErr 1
    (fun c' => singleSync_notOk fetch ms (.many b) method r h hok c') MAX_RETRIES c
    (by simp [MAX_RETRIES])
  simpa using this

/-- The per-batch unit against a healthy echoing endpoint: success on the
first outer attempt, one fetch call. -/
theorem batchRetry_ok (fetch : Fetch) (ms : MetaServices) (method : String)
    (b : List SyncRec) (r : Response) (p : Payload)
    (h : fetch (mkRequest method (.many b)) = .resp r) (hok : r.ok = true)
    (hj : r.json = .ok p) (hm : persistStep ms (.many b) = .ok ()) (c : Nat) :
    retryOperation (fun c' => singleSync fetch ms (.many b) method c') MAX_RETRIES c
      = (.ok p, c + 1) := by
  have := retryOperation_const_ok _ p 1
    (fun c' => singleSync_ok fetch ms (.many b) method r p h hok hj hm c')
    (MAX_RETRIES - 1) c
  have h5 : MAX_RETRIES - 1 + 1 = MAX_RETRIES := by simp [MAX_RETRIES]
  rwa [h5] at this

theorem chunkListAux_flatten :
    ∀ (n : Nat) (l : List SyncRec), l.length ≤ n → (chunkListAux n l).flatten = l := by
  intro n
  induction n with
  | zero =>
    intro l h
    cases l with
    | nil => rfl
    | cons r rs => simp at h
  | succ n ih =>
    intro l h
    cases l with
    | nil => rfl
    | cons r rs =>
      rw [chunkListAux]
      have hd : ((r :: rs).drop BATCH_SIZE).length ≤ n := by
        simp only [List.length_drop, List.length_cons, BATCH_SIZE]
        simp only [List.length_cons] at h
        omega
      simp only [List.flatten_cons, ih _ hd, List.take_append_drop]

/-- The batches of a submission, concatenated, are exactly the submission:
no record is dropped or duplicated by the partition. -/
theorem chunkList_flatten (l : List SyncRec) : (chunkList l).flatten = l :=
  chunkListAux_flatten l.length l le_rfl

/-- `batchSyncLoop` over batches that all echo successfully: results are
the batches' records in order, no error entries, one call per batch. -/
theorem batchSyncLoop_allEcho (fetch : Fetch) (ms : MetaServices) (method : String) :
    ∀ (bs : List (List SyncRec)),
    (∀ b ∈ bs, ∃ r : Response, fetch (mkRequest method (.many b)) = .resp r ∧
        r.ok = true ∧ r.json = .ok (.many b)) →
    (∀ b ∈ bs, persistAll ms b = .ok ()) →
    ∀ res err c, batchSyncLoop fetch ms method bs res err c =
      ({ results := res ++ bs.flatten, errors := err }, c + bs.length) := by
  intro bs
  induction bs with
  | nil => intro _ _ res err c; simp [batchSyncLoop]
  | cons b bs ih =>
    intro hb hm res err c
    obtain ⟨r, hr, hok, hj⟩ := hb b (by simp)
    have hmb : persistStep ms (.many b) = .ok () := hm b (by simp)
    have hstep := batchRetry_ok fetch ms method b r (.many b) hr hok hj hmb c
    rw [batchSyncLoop, hstep]
    have ihb := ih (fun x hx => hb x (by simp [hx])) (fun x hx => hm x (by simp [hx]))
      (res ++ Payload.items (.many b)) err (c + 1)
    show batchSyncLoop fetch ms method bs (res ++ Payload.items (.many b)) err (c + 1)
      = ({ results := res ++ (b :: bs).flatten, errors := err }, c + (b :: bs).length)
    rw [ihb]
    simp only [Payload.items, List.flatten_cons, List.append_assoc, List.length_cons,
      Prod.mk.injEq]
    exact ⟨trivial, by omega⟩

/-- `batchSyncLoop` when exactly the `j`-th batch fails permanently at
network level and every other batch echoes: the other batches' records all
land in `results` in order, and the failing batch contributes one error
entry per record, carrying the record's id and the thrown error's
message. -/
theorem batchSyncLoop_oneFail (fetch : Fetch) (ms : MetaServices) (method : String) :
    ∀ (cs : List (List SyncRec)) (j : Nat) (hj : j < cs.length) (m : String),
    fetch (mkRequest method (.many (cs.get ⟨j, hj⟩))) = .thrown m →
    (∀ i, (hi : i < cs.length) → i ≠ j →
      ∃ r : Response, fetch (mkRequest method (.many (cs.get ⟨i, hi⟩))) = .resp r ∧
        r.ok = true ∧ r.json = .ok (.many (cs.get ⟨i, hi⟩))) →
    (∀ b ∈ cs, persistAll ms b = .ok ()) →
    ∀ res err c, batchSyncLoop fetch ms method cs res err c =
      ({ results := res ++ (cs.eraseIdx j).flatten,
         errors := err ++ (cs.get ⟨j, hj⟩).map fun x => ⟨x.id, "Failed to sync data"⟩ },
       c + (cs.length - 1) + MAX_RETRIES * MAX_RETRIES) := by
  intro cs
  induction cs with
  | nil => intro j hj; simp at hj
  | cons b bs ih =>
    intro j hj m hfail hok hmeta res err c
    cases j with
    | zero =>
      have hstep := batchRetry_thrown fetch ms method b m hfail c
      rw [batchSyncLoop, hstep]
      show batchSyncLoop fetch ms method bs res
          (err ++ b.map fun x => ⟨x.id, syncFailedErr.message⟩)
          (c + MAX_RETRIES * MAX_RETRIES) = _
      have hallEcho : ∀ x ∈ bs, ∃ r : Response,
          fetch (mkRequest method (.many x)) = .resp r ∧
          r.ok = true ∧ r.json = .ok (.many x) := by
        intro x hx
        obtain ⟨i, hgi⟩ := List.mem_iff_get.mp hx
        have := hok (i.1 + 1) (Nat.succ_lt_succ i.2) (by omega)
        rw [show ((b :: bs).get ⟨i.1 + 1, Nat.succ_lt_succ i.2⟩)
          = bs.get i from rfl, hgi] at this
        exact this
      have heq := batchSyncLoop_allEcho fetch ms method bs hallEcho
        (fun x hx => hmeta x (by simp [hx])) res
        (err ++ List.map (fun x => ({ id := x.id, error := syncFailedErr.message } : SyncErr)) b)
        (c + MAX_RETRIES * MAX_RETRIES)
      rw [heq, List.eraseIdx]
      simp only [List.get, syncFailedErr, List.length_cons, Prod.mk.injEq]
      exact ⟨trivial, by omega⟩
    | succ k =>
      have hk : k < bs.length := Nat.lt_of_succ_lt_succ hj
      obtain ⟨r, hr, hrok, hrj⟩ := hok 0 (by simp) (by omega)
      rw [show ((b :: bs).get ⟨0, by simp⟩) = b from rfl] at hr hrj
      have hmb : persistStep ms (.many b) = .ok () := hmeta b (by simp)
      have hstep := batchRetry_ok fetch ms method b r (.many b) hr hrok hrj hmb c
      rw [batchSyncLoop, hstep]
      show batchSyncLoop fetch ms method bs (res ++ Payload.items (.many b)) err (c + 1) = _
      have hfail' : fetch (mkRequest method (.many (bs.get ⟨k, hk⟩))) = .thrown m := by
        rw [show (bs.get ⟨k, hk⟩) = ((b :: bs).get ⟨k + 1, hj⟩) from rfl]
        exact hfail
      have hok' : ∀ i, (hi : i < bs.length) → i ≠ k →
          ∃ r : Response, fetch (mkRequest method (.many (bs.get ⟨i, hi⟩))) = .resp r ∧
            r.ok = true ∧ r.json = .ok (.many (bs.get ⟨i, hi⟩)) := by
        intro i hi hik
        have := hok (i + 1) (Nat.succ_lt_succ hi) (by omega)
        rw [show ((b :: bs).get ⟨i + 1, Nat.succ_lt_succ hi⟩)
          = bs.get ⟨i, hi⟩ from rfl] at this
        exact this
      have := ih k hk m hfail' hok' (fun x hx => hmeta x (by simp [hx]))
        (res ++ Payload.items (.many b)) err (c + 1)
      rw [this]
      rw [show ((b :: bs).get ⟨k + 1, hj⟩) = bs.get ⟨k, hk⟩ from rfl, List.eraseIdx]
      simp only [Payload.items, List.flatten_cons, List.append_assoc, List.length_cons,
        Prod.mk.injEq]
      exact ⟨trivial, by omega⟩

/-- C1: for every submission of more than `BATCH_SIZE` records where
exactly one batch fails permanently (its fetch always rejects) and every
sibling batch succeeds (echoing its records, with metadata persistence
succeeding), `syncData` returns an outcome whose `results` are exactly the
succeeding batches' records in order and whose `errors` contain one entry
per record of the failing batch, carrying that record's id and the
underlying error's message; the failing batch never prevents the
processing of its siblings. -/
theorem C1_partial_failure_isolation (fetch : Fetch) (ms : MetaServices) (method : String)
    (rs : List SyncRec) (j : Nat) (m : String)
    (hlen : rs.length > BATCH_SIZE)
    (hj : j < (chunkList rs).length)
    (hfail : fetch (mkRequest method (.many ((chunkList rs).get ⟨j, hj⟩))) = .thrown m)
    (hok : ∀ i, (hi : i < (chunkList rs).length) → i ≠ j →
      ∃ r : Response, fetch (mkRequest method (.many ((chunkList rs).get ⟨i, hi⟩))) = .resp r ∧
        r.ok = true ∧ r.json = .ok (.many ((chunkList rs).get ⟨i, hi⟩)))
    (hmeta : ∀ b ∈ chunkList rs, persistAll ms b = .ok ()) (c : Nat) :
    (syncData fetch ms (.many rs) method c).1 =
      .ok { results := ((chunkList rs).eraseIdx j).flatten,
            errors := ((chunkList rs).get ⟨j, hj⟩).map
              fun x => ⟨x.id, "Failed to sync data"⟩ } := by
  have hloop := batchSyncLoop_oneFail fetch ms method (chunkList rs) j hj m hfail hok hmeta
    [] [] c
  simp only [syncData, if_pos hlen, batchSync, hloop, List.nil_append]

/-- A successful `retryOperation` result was produced by some successful
attempt of the operation itself. -/
theorem retryOperation_ok_inv {α : Type} (op : Nat → Except JsError α × Nat) :
    ∀ n c a c', retryOperation op n c = (.ok a, c') → ∃ c0, op c0 = (.ok a, c') := by
  intro n
  induction n with
  | zero => intro c a c' h; simp [retryOperation] at h
  | succ n ih =>
    intro c a c' h
    rw [retryOperation] at h
    split at h
    next a0 calls0 heq => exact ⟨c, heq.trans h⟩
    next e calls0 heq =>
      by_cases hn : n = 0
      · subst hn; simp at h
      · rw [if_neg hn] at h
        exact ih calls0 a c' h

/-- A successful `singleSync` means: the fetch resolved, the status was ok,
the body parsed to the returned payload, and the metadata step
succeeded. -/
theorem singleSync_ok_inv (fetch : Fetch) (ms : MetaServices) (data : RecOrList)
    (method : String) (c : Nat) (p : Payload) (c' : Nat)
    (h : singleSync fetch ms data method c = (.ok p, c')) :
    ∃ r : Response, fetch (mkRequest method data) = .resp r ∧ r.ok = true ∧
      r.json = .ok p ∧ persistStep ms data = .ok () := by
  cases hf : fetch (mkRequest method data) with
  | thrown m =>
    rw [singleSync_thrown fetch ms data method m hf c] at h
    simp at h
  | resp r =>
    by_cases hok : r.ok = true
    · cases hj : r.json with
      | error e =>
        rw [singleSync_badJson fetch ms data method r e hf hok hj c] at h
        simp at h
      | ok p0 =>
        cases hm : persistStep ms data with
        | error e =>
          rw [singleSync_badMeta fetch ms data method r p0 e hf hok hj hm c] at h
          simp at h
        | ok u =>
          cases u
          rw [singleSync_ok fetch ms data method r p0 hf hok hj hm c] at h
          simp only [Prod.mk.injEq, Except.ok.injEq] at h
          refine ⟨r, rfl, hok, ?_, rfl⟩
          rw [hj, h.1]
    · have hnot : r.ok = false := by revert hok; cases r.ok <;> simp
      rw [singleSync_notOk fetch ms data method r hf hnot c] at h
      simp at h

/-- The count invariant of `batchSyncLoop`: when each successful batch
call's payload has exactly as many items as the batch has records, every
batch contributes its size to `results` (success) or to `errors`
(failure). -/
theorem batchSyncLoop_count (fetch : Fetch) (ms : MetaServices) (method : String) :
    ∀ (bs : List (List SyncRec)),
    (∀ b ∈ bs, ∀ (r : Response) (p : Payload),
        fetch (mkRequest method (.many b)) = .resp r → r.ok = true →
        r.json = .ok p → p.items.length = b.length) →
    ∀ res err c,
    (batchSyncLoop fetch ms method bs res err c).1.results.length
      + (batchSyncLoop fetch ms method bs res err c).1.errors.length
      = res.length + err.length + bs.flatten.length := by
  intro bs
  induction bs with
  | nil => intro _ res err c; simp [batchSyncLoop]
  | cons b bs ih =>
    intro hcount res err c
    have hcount' : ∀ x ∈ bs, ∀ (r : Response) (p : Payload),
        fetch (mkRequest method (.many x)) = .resp r → r.ok = true →
        r.json = .ok p → p.items.length = x.length :=
      fun x hx => hcount x (by simp [hx])
    rcases hstep : retryOperation (fun c' => singleSync fetch ms (.many b) method c')
      MAX_RETRIES c with ⟨v, calls'⟩
    cases v with
    | ok p =>
      obtain ⟨c0, hop⟩ := retryOperation_ok_inv _ MAX_RETRIES c p calls' hstep
      obtain ⟨r, hr, hrok, hrj, _⟩ :=
        singleSync_ok_inv fetch ms (.many b) method c0 p calls' hop
      have hlen := hcount b (by simp) r p hr hrok hrj
      have hred : batchSyncLoop fetch ms method (b :: bs) res err c
          = batchSyncLoop fetch ms method bs (res ++ p.items) err calls' := by
        rw [batchSyncLoop, hstep]
      rw [hred, ih hcount' (res ++ p.items) err calls']
      simp only [List.length_append, List.flatten_cons, hlen]
      omega
    | error e =>
      have hred : batchSyncLoop fetch ms method (b :: bs) res err c
          = batchSyncLoop fetch ms method bs res
              (err ++ List.map (fun x => ({ id := x.id, error := e.message } : SyncErr)) b)
              calls' := by
        rw [batchSyncLoop, hstep]
      rw [hred, ih hcount' res
        (err ++ List.map (fun x => ({ id := x.id, error := e.message } : SyncErr)) b) calls']
      simp only [List.length_append, List.length_map, List.flatten_cons]
      omega

/-- C3 (amended): on the batching path (more than `BATCH_SIZE` records),
provided every successful batch call's response carries exactly as many
results as the batch has records, the outcome satisfies
`results.length + errors.length = number of input records`.  The code
performs no pre-dispatch shape validation, so the original claim's
validation clause has no counterpart, and the count depends on the
endpoint echoing one result per record (see the counterexample). -/
theorem C3_count_invariant_amended (fetch : Fetch) (ms : MetaServices) (method : String)
    (rs : List SyncRec) (hlen : rs.length > BATCH_SIZE)
    (hcount : ∀ b ∈ chunkList rs, ∀ (r : Response) (p : Payload),
        fetch (mkRequest method (.many b)) = .resp r → r.ok = true →
        r.json = .ok p → p.items.length = b.length)
    (c : Nat) (out : SyncResult)
    (hout : (syncData fetch ms (.many rs) method c).1 = .ok out) :
    out.results.length + out.errors.length = rs.length := by
  simp only [syncData, if_pos hlen, batchSync] at hout
  have hcnt := batchSyncLoop_count fetch ms method (chunkList rs) hcount [] [] c
  have hcase : out = (batchSyncLoop fetch ms method (chunkList rs) [] [] c).1 := by
    rcases hloop : batchSyncLoop fetch ms method (chunkList rs) [] [] c with ⟨o, calls'⟩
    rw [hloop] at hout
    simp only [Except.ok.injEq] at hout
    rw [← hout]
  rw [hcase]
  rw [hcnt, chunkList_flatten]
  simp

/-- C1 witness: 101 copies of one record split into a full batch and a
singleton batch; the singleton batch fails permanently, the full batch
echoes.  The outcome holds the 100 echoed records and one error entry. -/
theorem C1_witness :
    (syncData mixedFetch noMeta (.many (List.replicate 101 recA)) "POST" 0).1 =
      .ok { results := List.replicate 100 recA,
            errors := [⟨"c1", "Failed to sync data"⟩] } := by
  have h := C1_partial_failure_isolation mixedFetch noMeta "POST"
    (List.replicate 101 recA) 1 "boom" (by decide) (by decide) (by decide)
    (fun i hi hne => by
      have hl : (chunkList (List.replicate 101 recA)).length = 2 := by decide
      have hi0 : i = 0 := by omega
      subst hi0
      have hb : (chunkList (List.replicate 101 recA)).get ⟨0, hi⟩
        = List.replicate 100 recA := rfl
      rw [hb]
      exact ⟨⟨true, 200, "OK", .ok (.many (List.replicate 100 recA))⟩,
        by decide, rfl, rfl⟩)
    (by decide) 0
  rw [h]
  decide

/-- C2 counterexample: a single batch against an endpoint whose every call
rejects at network level exhausts 25 fetch calls, not `MAX_RETRIES` (5):
the outer per-batch retry multiplies with `singleSync`'s inner retry
around the fetch. -/
theorem C2_counterexample :
    retryOperation (fun c => singleSync alwaysThrow noMeta (.many [recA]) "POST" c)
        MAX_RETRIES 0 = (.error syncFailedErr, 25)
    ∧ (25 : Nat) ≠ MAX_RETRIES := by
  constructor
  · decide
  · decide

/-- C2 (amended): a batch whose fetch calls always reject at network level
performs exactly `MAX_RETRIES * MAX_RETRIES` (25) fetch calls and then
terminates with a reported failure; a batch whose calls always resolve
with a failing HTTP status performs exactly `MAX_RETRIES` (5) fetch calls
and then terminates with a reported failure.  Neither path retries
indefinitely. -/
theorem C2_retry_budget_amended (fetch : Fetch) (ms : MetaServices)
    (b : List SyncRec) (method : String) (c : Nat) :
    (∀ m, fetch (mkRequest method (.many b)) = .thrown m →
      retryOperation (fun c' => singleSync fetch ms (.many b) method c') MAX_RETRIES c
        = (.error syncFailedErr, c + MAX_RETRIES * MAX_RETRIES))
    ∧ (∀ r : Response, fetch (mkRequest method (.many b)) = .resp r → r.ok = false →
      retryOperation (fun c' => singleSync fetch ms (.many b) method c') MAX_RETRIES c
        = (.error syncFailedErr, c + MAX_RETRIES)) :=
  ⟨fun m h => batchRetry_thrown fetch ms method b m h c,
   fun r h hok => batchRetry_notOk fetch ms method b r h hok c⟩

/-- C2 witness: both budgets at concrete endpoints. -/
theorem C2_witness :
    retryOperation (fun c' => singleSync alwaysThrow noMeta (.many [recA]) "POST" c')
        MAX_RETRIES 3 = (.error syncFailedErr, 3 + MAX_RETRIES * MAX_RETRIES)
    ∧ retryOperation (fun c' => singleSync badStatusFetch noMeta (.many [recA]) "POST" c')
        MAX_RETRIES 3 = (.error syncFailedErr, 3 + MAX_RETRIES) :=
  ⟨(C2_retry_budget_amended alwaysThrow noMeta [recA] "POST" 3).1 "network error" rfl,
   (C2_retry_budget_amended badStatusFetch noMeta [recA] "POST" 3).2
     ⟨false, 500, "Internal Server Error", .error "no body"⟩ rfl rfl⟩

/-- C3 counterexample: one submitted record on the non-batched path, with
an endpoint answering two results: the outcome has 2 results and 0 errors,
yet only 1 record passed in — the claimed count invariant fails, and no
validation-specific failure path exists anywhere in `syncData`. -/
theorem C3_counterexample :
    (syncData dupFetch noMeta (.one recA) "POST" 0).1
      = .ok { results := [recA, recA], errors := [] }
    ∧ ({ results := [recA, recA], errors := [] } : SyncResult).results.length
        + ({ results := [recA, recA], errors := [] } : SyncResult).errors.length ≠ 1 := by
  constructor
  · decide
  · decide

/-- C3 witness: 101 echoed records on the batching path; the count
invariant holds with 101 results and 0 errors. -/
theorem C3_witness :
    ({ results := List.replicate 101 recA, errors := [] } : SyncResult).results.length
      + ({ results := List.replicate 101 recA, errors := [] } : SyncResult).errors.length
      = (List.replicate 101 recA).length := by
  refine C3_count_invariant_amended echoFetch noMeta "POST" (List.replicate 101 recA)
    (by decide) ?_ 0 _ (by decide)
  intro b _ r p hr hok hj
  have hr' : FetchOutcome.resp ⟨true, 200, "OK", .ok (.many b)⟩ = .resp r := by
    rw [← hr]; rfl
  cases hr'
  have hp : Payload.many b = p := by
    simpa using hj
  rw [← hp]
  rfl

/-- C9 counterexample: a `DELETE` batch call carries the serialized batch
as its body — the source only exempts `GET`
(`body: method !== 'GET' ? JSON.stringify(data) : undefined`). -/
theorem C9_counterexample :
    (mkRequest "DELETE" (.many [recA])).body = some (.many [recA])
    ∧ (mkRequest "DELETE" (.many [recA])).body ≠ none := by
  constructor
  · decide
  · decide

/-- C9 (amended): only `GET` carries no request body; `POST`, `PUT` and
`DELETE` (and every other method) carry the serialized batch. -/
theorem C9_request_body_amended (method : String) (data : RecOrList) :
    (mkRequest method data).body = if method = "GET" then none else some data := by
  by_cases h : method = "GET" <;> simp [mkRequest, h]

/-- C10: on the non-batched path — a single record, or a collection of at
most `BATCH_SIZE` records — a returned outcome always has an empty
`errors` list (failures on this path are thrown instead); per-record error
entries arise only on the batching path. -/
theorem C10_small_path_errors_empty (fetch : Fetch) (ms : MetaServices)
    (method : String) (data : RecOrList) (c : Nat)
    (hsmall : ∀ rs, data = RecOrList.many rs → rs.length ≤ BATCH_SIZE)
    (out : SyncResult)
    (hout : (syncData fetch ms data method c).1 = .ok out) :
    out.errors = [] := by
  cases data with
  | one r =>
    simp only [syncData] at hout
    rcases hs : singleSync fetch ms (.one r) method c with ⟨v, c'⟩
    rw [hs] at hout
    cases v with
    | ok p =>
      simp only [Except.ok.injEq] at hout
      rw [← hout]
    | error e => simp at hout
  | many rs =>
    have hn : ¬ rs.length > BATCH_SIZE := by
      have := hsmall rs rfl
      omega
    simp only [syncData, if_neg hn] at hout
    rcases hs : singleSync fetch ms (.many rs) method c with ⟨v, c'⟩
    rw [hs] at hout
    cases v with
    | ok p =>
      simp only [Except.ok.injEq] at hout
      rw [← hout]
    | error e => simp at hout

/-- C10 witness: one record against the echoing endpoint. -/
theorem C10_witness :
    ({ results := [recA], errors := [] } : SyncResult).errors = [] :=
  C10_small_path_errors_empty echoFetch noMeta "POST" (.one recA) 0
    (fun rs h => nomatch h) { results := [recA], errors := [] } (by decide)

end DataSynchronizer

namespace ConflictResolution

/-- C4: at the repository's own array-merge test input — local
`{id:"1", array:[1,2,3]}`, cloud `{id:"1", array:[3,4,5]}` — the merge
strategy produces the array `[3,4,5,1,2]`: the union is remote-first
(`[...target, ...source]` with the cloud record as target), while the
claim, the spec and the repository's test all expect the local-first union
`[1,2,3,4,5]`.  Scalar fields still resolve local-wins (`id` stays
`"1"`). -/
theorem C4_array_merge_bug :
    mergeResolve 5 mergeLocalTest mergeCloudTest
      = .ok (.obj [("id", .str "1"),
          ("array", .arr [.num 3, .num 4, .num 5, .num 1, .num 2])])
    ∧ ([3, 4, 5, 1, 2] : List Int) ≠ [1, 2, 3, 4, 5] := by
  constructor
  · rfl
  · decide

/-- C5: at the repository's own circular-reference test input — local
`{id:"1", self:<itself>}` (cyclic), cloud `{id:"1", content:"cloud"}` —
the merge strategy terminates and returns a value: a fresh output object
(address 2) copying the cloud fields and aliasing `self` straight to the
cyclic local object.  No error is signalled, although the claim, the spec
and the repository's test (`rejects.toThrow(AppError)`) require
rejection.  Two units of fuel suffice because the `seen` `WeakMap` (and
here even plain field assignment, since `self` is absent from the target)
prevents any re-descent into the cycle. -/
theorem C5_cycle_returns_value :
    MergeHeap.mergeResolveH 2 MergeHeap.cyclicHeap 0 1
      = some (.obj 2,
          ⟨⟨[[("id", .str "1"), ("self", .obj 0)],
             [("id", .str "1"), ("content", .str "cloud")],
             [("id", .str "1"), ("content", .str "cloud"), ("self", .obj 0)]]⟩,
           [(0, 2)]⟩) := rfl

/-- C6: last-write-wins — if both `modificationDate`s are unparseable the
local record is returned; if exactly one side parses, that side's record
is returned; if both parse, the local record is returned iff its timestamp
is greater than or equal to the remote's, otherwise the remote record. -/
theorem C6_last_write_wins (parse : String → Option Int) (l c : CRecord) :
    (dateOf parse l = none → dateOf parse c = none → lastWriteWins parse l c = l)
    ∧ (dateOf parse l = none → (∃ t, dateOf parse c = some t) →
        lastWriteWins parse l c = c)
    ∧ (dateOf parse c = none → (∃ t, dateOf parse l = some t) →
        lastWriteWins parse l c = l)
    ∧ (∀ tl tc, dateOf parse l = some tl → dateOf parse c = some tc →
        lastWriteWins parse l c = if tl ≥ tc then l else c) := by
  refine ⟨?_, ?_, ?_, ?_⟩
  · intro hl hc
    simp [lastWriteWins, hl, hc]
  · rintro hl ⟨t, hc⟩
    simp [lastWriteWins, hl, hc]
  · rintro hc ⟨t, hl⟩
    simp [lastWriteWins, hl, hc]
  · intro tl tc hl hc
    simp [lastWriteWins, hl, hc]

/-- C6 witness: the repository's own test pair (local at 13:00, cloud at
12:00) resolves to the local record; with a parser that parses nothing,
the local record also wins. -/
theorem C6_witness :
    lastWriteWins parseTest lwwLocal lwwCloud = lwwLocal
    ∧ lastWriteWins (fun _ => none) lwwLocal lwwCloud = lwwLocal := by
  constructor
  · have h := (C6_last_write_wins parseTest lwwLocal lwwCloud).2.2.2
      1688389200000 1688385600000 rfl rfl
    rw [h]
    norm_num
  · exact (C6_last_write_wins (fun _ => none) lwwLocal lwwCloud).1 rfl rfl

end ConflictResolution

namespace LivePhotoService

/-- A found two-byte pattern lies wholly inside the buffer. -/
theorem indexOfPair_bound (a b : Nat) :
    ∀ (l : List Nat) (i : Nat), indexOfPair a b l = some i → i + 2 ≤ l.length := by
  intro l
  induction l with
  | nil => intro i h; simp [indexOfPair] at h
  | cons x rest ih =>
    cases rest with
    | nil => intro i h; simp [indexOfPair] at h
    | cons y rest' =>
      intro i h
      rw [indexOfPair] at h
      by_cases hxy : x = a ∧ y = b
      · rw [if_pos hxy] at h
        simp only [Option.some.injEq] at h
        simp [← h]
      · rw [if_neg hxy] at h
        cases hih : indexOfPair a b (y :: rest') with
        | none => rw [hih] at h; simp at h
        | some j =>
          rw [hih] at h
          simp at h
          have := ih j hih
          simp only [List.length_cons] at this ⊢
          omega

/-- C8: a buffer with no `FF D9` end-of-image marker is not rejected:
`indexOf` returns `-1`, `jpegEnd` becomes `1`, and the conversion silently
splits the asset into a one-byte "image" and the remainder as "video" —
where the claim (and the spec) require a typed transcoding failure. -/
theorem C8_missing_eoi_not_rejected :
    indexOfPair 0xFF 0xD9 [0x00, 0x01, 0x02] = none
    ∧ extractJpegAndMp4 [0x00, 0x01, 0x02] = ([0x00], [0x01, 0x02]) := by
  constructor
  · rfl
  · rfl

/-- C7 counterexample: for the well-formed pair `(jpeg0, mov0)` (even with
perfect, identity codec steps) the round trip does not reproduce the image
payload: the returned image carries the inserted XMP marker block and is
671 bytes longer than the original. -/
theorem C7_counterexample :
    (convertToAppleLivePhoto id (convertToAndroidMotionPhoto id jpeg0 mov0)).1.length
      = jpeg0.length + xmpMetadata.length
    ∧ convertToAppleLivePhoto id (convertToAndroidMotionPhoto id jpeg0 mov0)
      ≠ (jpeg0, mov0) := by
  have h1 : (convertToAppleLivePhoto id (convertToAndroidMotionPhoto id jpeg0 mov0)).1.length
      = 681 := by decide
  constructor
  · rw [h1]; decide
  · intro h
    have h2 : (convertToAppleLivePhoto id (convertToAndroidMotionPhoto id jpeg0 mov0)).1.length
        = jpeg0.length := by rw [h]
    rw [h1] at h2
    exact absurd h2 (by decide)

/-- C7 (amended): when the still image contains an APP1 (`FF E1`) marker
at index `i` and the first `FF D9` of the spliced asset sits at its tail
(`jpeg.length + xmpMetadata.length - 2`, i.e. the image's own end-of-image
marker), and the codec steps invert each other, the round trip returns the
video payload bit-identically — but the image payload comes back with the
XMP motion-photo block inserted after the APP1 marker, hence longer than
(not identical to) the original still image. -/
theorem C7_roundtrip_amended
    (movToMp4 mp4ToMov : Bytes → Bytes) (jpeg mov : Bytes) (i : Nat)
    (hcodec : mp4ToMov (movToMp4 mov) = mov)
    (he : indexOfPair 0xFF 0xE1 jpeg = some i)
    (hd : indexOfPair 0xFF 0xD9 (embedMp4IntoJpeg jpeg (movToMp4 mov))
        = some (jpeg.length + xmpMetadata.length - 2)) :
    convertToAppleLivePhoto mp4ToMov (convertToAndroidMotionPhoto movToMp4 jpeg mov)
      = (jpeg.take (i + 2) ++ xmpMetadata ++ jpeg.drop (i + 2), mov)
    ∧ (jpeg.take (i + 2) ++ xmpMetadata ++ jpeg.drop (i + 2)).length
      = jpeg.length + xmpMetadata.length := by
  have hi2 : i + 2 ≤ jpeg.length := indexOfPair_bound 0xFF 0xE1 jpeg i he
  have hX : (2 : Nat) ≤ xmpMetadata.length := by decide
  have hembed : embedMp4IntoJpeg jpeg (movToMp4 mov)
      = (jpeg.take (i + 2) ++ xmpMetadata ++ jpeg.drop (i + 2)) ++ movToMp4 mov := by
    rw [embedMp4IntoJpeg, he]
  have hA : (jpeg.take (i + 2) ++ xmpMetadata ++ jpeg.drop (i + 2)).length
      = jpeg.length + xmpMetadata.length := by
    simp only [List.length_append, List.length_take, List.length_drop]
    omega
  have hstep : extractJpegAndMp4 (embedMp4IntoJpeg jpeg (movToMp4 mov))
      = ((embedMp4IntoJpeg jpeg (movToMp4 mov)).take
           (jpeg.length + xmpMetadata.length - 2 + 2),
         (embedMp4IntoJpeg jpeg (movToMp4 mov)).drop
           (jpeg.length + xmpMetadata.length - 2 + 2)) := by
    rw [extractJpegAndMp4, hd]
  have hEnd : jpeg.length + xmpMetadata.length - 2 + 2
      = (jpeg.take (i + 2) ++ xmpMetadata ++ jpeg.drop (i + 2)).length := by
    rw [hA]; omega
  have hsplit : extractJpegAndMp4 (embedMp4IntoJpeg jpeg (movToMp4 mov))
      = (jpeg.take (i + 2) ++ xmpMetadata ++ jpeg.drop (i + 2), movToMp4 mov) := by
    rw [hstep, hembed, hEnd, List.take_left, List.drop_left]
  constructor
  · simp only [convertToAndroidMotionPhoto, convertToAppleLivePhoto, hsplit, hcodec]
  · exact hA

/-- C7 witness: the concrete pair `(jpeg0, mov0)` with identity codecs:
the video returns bit-identically, the image with the XMP block spliced in
after the APP1 marker at index 2. -/
theorem C7_witness :
    convertToAppleLivePhoto id (convertToAndroidMotionPhoto id jpeg0 mov0)
      = (jpeg0.take 4 ++ xmpMetadata ++ jpeg0.drop 4, mov0)
    ∧ (jpeg0.take 4 ++ xmpMetadata ++ jpeg0.drop 4).length
      = jpeg0.length + xmpMetadata.length :=
  C7_roundtrip_amended id id jpeg0 mov0 2 rfl (by decide) (by decide)

end LivePhotoService
